import Mathlib

/-!
Verification of the ScraptPress coordination engine.

The definitions below are a shallow embedding of the TypeScript sources:
the in-memory scraping lock service, the retry orchestrator, the Firestore
page repository, the job-queue security service, the search controller
sync path and the queue worker. Stateful code is embedded as explicit
state passing; the wall clock is an explicit `now : Nat` argument
(milliseconds); fallible operations return `Except`.
-/

/-! ### Association-list maps

The services keep their state in JavaScript `Map`s / Firestore documents;
both are embedded as association lists with the usual get/set/delete.
-/

/-- Lookup in an association list: first binding of the key wins,
mirroring `Map.get`. -/
def lookupA [DecidableEq κ] : List (κ × ν) → κ → Option ν
  | [], _ => none
  | (k, v) :: rest, key => if k = key then some v else lookupA rest key

/-- Overwrite the binding of a key, mirroring `Map.set`. -/
def setA [DecidableEq κ] (m : List (κ × ν)) (key : κ) (v : ν) : List (κ × ν) :=
  (key, v) :: m.filter (fun p => decide (p.1 ≠ key))

/-- Remove all bindings of a key, mirroring `Map.delete`. -/
def eraseA [DecidableEq κ] (m : List (κ × ν)) (key : κ) : List (κ × ν) :=
  m.filter (fun p => decide (p.1 ≠ key))

theorem lookupA_setA_self [DecidableEq κ] (m : List (κ × ν)) (k : κ) (v : ν) :
    lookupA (setA m k v) k = some v := by
  simp [setA, lookupA]

theorem lookupA_eraseA_self [DecidableEq κ] (m : List (κ × ν)) (k : κ) :
    lookupA (eraseA m k) k = none := by
  induction m with
  | nil => rfl
  | cons p rest ih =>
    by_cases h : p.1 = k
    · simpa [eraseA, h] using ih
    · simpa [eraseA, lookupA, h] using ih

theorem setA_eraseA [DecidableEq κ] (m : List (κ × ν)) (k : κ) (v : ν) :
    setA (eraseA m k) k v = setA m k v := by
  simp [setA, eraseA, List.filter_filter]

/-! ### ScrapingLockService (src/src/services/queue/scraping-lock.service.ts)

The lock map is keyed by the string produced by `getLockKey`; `Date.now()`
becomes the explicit `now` argument and the generated
`Date.now()-Math.random()` lock id becomes the explicit `freshId`
argument.
-/

/-- The `LockInfo` record stored in the lock map. -/
structure LockInfo where
  query : String
  page : Nat
  limit : Nat
  startTime : Nat
  lockId : String
deriving DecidableEq

/-- The private `locks : Map<string, LockInfo>` field. -/
abbrev LockMap := List (String × LockInfo)

/-- `LOCK_TIMEOUT_MS = 15 * 60 * 1000` (15 minutes). -/
def LOCK_TIMEOUT_MS : Nat := 15 * 60 * 1000

/-- `getLockKey(query, page, limit)`:
the template string of lowercased, trimmed query with page and limit. -/
def getLockKey (query : String) (page limit : Nat) : String :=
  query.toLower.trim ++ ":page:" ++ toString page ++ ":limit:" ++ toString limit

/-- `acquireLock(query, page, limit)`: if a lock exists and is expired
(elapsed strictly above the timeout) it is deleted and a new lock is
created; if it exists and is live the call returns null; otherwise a new
lock is created and its id returned. Returns the result together with the
updated lock map. -/
def acquireLock (locks : LockMap) (query : String) (page limit : Nat)
    (now : Nat) (freshId : String) : Option String × LockMap :=
  let lockKey := getLockKey query page limit
  match lookupA locks lockKey with
  | some existingLock =>
    let elapsed := now - existingLock.startTime
    if elapsed > LOCK_TIMEOUT_MS then
      (some freshId,
        setA (eraseA locks lockKey) lockKey
          ⟨query, page, limit, now, freshId⟩)
    else
      (none, locks)
  | none =>
    (some freshId, setA locks lockKey ⟨query, page, limit, now, freshId⟩)

/-- `releaseLock(query, page, limit, lockId)`: false when no lock is held
or the presented id differs from the stored one (map untouched); true
(with the entry deleted) when the id matches. -/
def releaseLock (locks : LockMap) (query : String) (page limit : Nat)
    (lockId : String) : Bool × LockMap :=
  let lockKey := getLockKey query page limit
  match lookupA locks lockKey with
  | none => (false, locks)
  | some existingLock =>
    if existingLock.lockId ≠ lockId then
      (false, locks)
    else
      (true, eraseA locks lockKey)

/-- `isLocked(query, page, limit)`: false when absent; when present but
expired the entry is deleted and false returned; true otherwise. -/
def isLocked (locks : LockMap) (query : String) (page limit : Nat)
    (now : Nat) : Bool × LockMap :=
  let lockKey := getLockKey query page limit
  match lookupA locks lockKey with
  | none => (false, locks)
  | some lock =>
    if now - lock.startTime > LOCK_TIMEOUT_MS then
      (false, eraseA locks lockKey)
    else
      (true, locks)

/-- A successful `acquireLock` returns exactly the fresh id and installs
the fresh lock over the key. -/
theorem acquireLock_success (locks : LockMap) (query : String)
    (page limit now : Nat) (freshId tok : String)
    (h : (acquireLock locks query page limit now freshId).1 = some tok) :
    tok = freshId ∧
    (acquireLock locks query page limit now freshId).2 =
      setA locks (getLockKey query page limit)
        ⟨query, page, limit, now, freshId⟩ := by
  unfold acquireLock at h ⊢
  cases hl : lookupA locks (getLockKey query page limit) with
  | none =>
    simp [hl] at h
    simp [hl, h]
  | some existingLock =>
    by_cases hexp : now - existingLock.startTime > LOCK_TIMEOUT_MS
    · simp [hl, hexp] at h
      simp [hl, hexp, h, setA_eraseA]
    · simp [hl, hexp] at h

/-- Claim C1: for every key, at most one live (non-expired) lock exists at
any instant, and while an unexpired lock is held every further
`acquireLock` for the same key returns null and leaves the lock map
unchanged; only after the lock is released with its token, or has aged
past the 15-minute timeout, does a new acquire succeed again. The lock
map binds at most one `LockInfo` per key, so the three conjuncts capture
mutual exclusion behaviorally. -/
theorem lock_mutual_exclusion
    (locks locks1 : LockMap) (query : String) (page limit : Nat)
    (t0 : Nat) (id0 tok : String)
    (h0 : (acquireLock locks query page limit t0 id0).1 = some tok)
    (h1 : locks1 = (acquireLock locks query page limit t0 id0).2) :
    (∀ t1 id1, t1 - t0 ≤ LOCK_TIMEOUT_MS →
        acquireLock locks1 query page limit t1 id1 = (none, locks1))
    ∧ ((releaseLock locks1 query page limit tok).1 = true
        ∧ ∀ t2 id2,
          (acquireLock (releaseLock locks1 query page limit tok).2
              query page limit t2 id2).1 = some id2)
    ∧ (∀ t3 id3, t3 - t0 > LOCK_TIMEOUT_MS →
        (acquireLock locks1 query page limit t3 id3).1 = some id3) := by
  obtain ⟨htok, hst⟩ :=
    acquireLock_success locks query page limit t0 id0 tok h0
  rw [hst] at h1
  subst h1
  have hget :
      lookupA (setA locks (getLockKey query page limit)
          ⟨query, page, limit, t0, id0⟩) (getLockKey query page limit)
        = some ⟨query, page, limit, t0, id0⟩ :=
    lookupA_setA_self _ _ _
  refine ⟨?_, ⟨?_, ?_⟩, ?_⟩
  · intro t1 id1 hlive
    simp [acquireLock, hget, Nat.not_lt.mpr hlive]
  · simp [releaseLock, hget, htok]
  · intro t2 id2
    simp [releaseLock, hget, htok, acquireLock, lookupA_eraseA_self]
  · intro t3 id3 hexp
    simp [acquireLock, hget, hexp]

/-- Witness for C1 at a concrete state: acquire at time 0, a second
acquire at the last live instant fails, release with the matching token
succeeds and re-acquire succeeds, and an acquire just past the timeout
also succeeds. -/
theorem lock_mutual_exclusion_witness :
    acquireLock (acquireLock [] "honda" 1 10 0 "a0").2 "honda" 1 10
        900000 "b0"
      = (none, (acquireLock [] "honda" 1 10 0 "a0").2)
    ∧ (releaseLock (acquireLock [] "honda" 1 10 0 "a0").2 "honda" 1 10
        "a0").1 = true
    ∧ (acquireLock
        (releaseLock (acquireLock [] "honda" 1 10 0 "a0").2 "honda" 1 10
          "a0").2 "honda" 1 10 7 "c0").1 = some "c0"
    ∧ (acquireLock (acquireLock [] "honda" 1 10 0 "a0").2 "honda" 1 10
        900001 "d0").1 = some "d0" := by
  have h := lock_mutual_exclusion [] (acquireLock [] "honda" 1 10 0 "a0").2
    "honda" 1 10 0 "a0" "a0" rfl rfl
  exact ⟨h.1 900000 "b0" (by decide), h.2.1.1, h.2.1.2 7 "c0",
    h.2.2 900001 "d0" (by decide)⟩

/-- Claim C2: for a key holding a lock, `releaseLock` with a token that
does not match the stored lock id returns false and leaves the lock map
unchanged, and it returns true and removes the lock exactly when the
token matches. -/
theorem releaseLock_token_check
    (locks : LockMap) (query : String) (page limit : Nat) (l : LockInfo)
    (tok : String)
    (hl : lookupA locks (getLockKey query page limit) = some l) :
    (tok ≠ l.lockId → releaseLock locks query page limit tok = (false, locks))
    ∧ (tok = l.lockId →
        releaseLock locks query page limit tok
          = (true, eraseA locks (getLockKey query page limit))) := by
  constructor
  · intro hne
    have hne2 : l.lockId ≠ tok := fun h => hne h.symm
    simp [releaseLock, hl, hne2]
  · intro heq
    simp [releaseLock, hl, heq]

/-- Witness for C2: in a one-lock map, a wrong token fails and changes
nothing, the right token succeeds and deletes the entry. -/
theorem releaseLock_token_check_witness :
    releaseLock [(getLockKey "honda" 1 10, ⟨"honda", 1, 10, 0, "a0"⟩)]
        "honda" 1 10 "zz"
      = (false, [(getLockKey "honda" 1 10, ⟨"honda", 1, 10, 0, "a0"⟩)])
    ∧ releaseLock [(getLockKey "honda" 1 10, ⟨"honda", 1, 10, 0, "a0"⟩)]
        "honda" 1 10 "a0"
      = (true, eraseA [(getLockKey "honda" 1 10, ⟨"honda", 1, 10, 0, "a0"⟩)]
          (getLockKey "honda" 1 10)) := by
  have h := releaseLock_token_check
    [(getLockKey "honda" 1 10, ⟨"honda", 1, 10, 0, "a0"⟩)]
    "honda" 1 10 ⟨"honda", 1, 10, 0, "a0"⟩
  exact ⟨(h "zz" (by simp [lookupA])).1 (by decide),
    (h "a0" (by simp [lookupA])).2 rfl⟩

/-- Claim C8: a lock acquired more than the 15-minute timeout ago and
never released is reported absent by `isLocked`, which also deletes it
from the lock map. -/
theorem isLocked_expired_deletes
    (locks : LockMap) (query : String) (page limit : Nat) (l : LockInfo)
    (now : Nat)
    (hl : lookupA locks (getLockKey query page limit) = some l)
    (hexp : now - l.startTime > LOCK_TIMEOUT_MS) :
    isLocked locks query page limit now
      = (false, eraseA locks (getLockKey query page limit)) := by
  simp [isLocked, hl, hexp]

/-- Witness for C8: a lock taken at time 0 queried at 15 minutes plus one
millisecond is gone. -/
theorem isLocked_expired_deletes_witness :
    isLocked [(getLockKey "honda" 1 10, ⟨"honda", 1, 10, 0, "a0"⟩)]
        "honda" 1 10 900001
      = (false, eraseA [(getLockKey "honda" 1 10, ⟨"honda", 1, 10, 0, "a0"⟩)]
          (getLockKey "honda" 1 10)) :=
  isLocked_expired_deletes
    [(getLockKey "honda" 1 10, ⟨"honda", 1, 10, 0, "a0"⟩)]
    "honda" 1 10 ⟨"honda", 1, 10, 0, "a0"⟩ 900001
    (by simp [lookupA]) (by decide)

/-! ### RetryOrchestrator (src/unnamed/part_019)

`executeWithRetry` loops `attempt = 1 .. maxAttempts`, awaiting the
operation; on failure, while attempts remain, it computes the backoff
delay, awaits the `onRetry` hook (without any try/catch of its own, so a
hook rejection propagates out of the loop) and sleeps. The embedding
makes the operation a function from the attempt number to an `Except`
result, makes the hook a function that may return an error value (the
thrown exception), and records an event trace; the wall-clock
`totalDuration` field is omitted. The fuel argument equals the number of
remaining attempts and only drives termination: the loop itself stops at
`maxAttempts`.
-/

/-- Options of `executeWithRetry`; the class default is
`{maxAttempts := 3, initialDelay := 1000, maxDelay := 10000,
backoffMultiplier := 2}`. -/
structure RetryOptions where
  maxAttempts : Nat
  initialDelay : Nat
  maxDelay : Nat
  backoffMultiplier : Nat
deriving DecidableEq

/-- `calculateDelay(attempt, options)` =
`min(initialDelay * backoffMultiplier^(attempt-1), maxDelay)`. -/
def calculateDelay (attempt : Nat) (options : RetryOptions) : Nat :=
  min (options.initialDelay * options.backoffMultiplier ^ (attempt - 1))
    options.maxDelay

/-- Observable steps of the retry loop: an attempt of the operation, an
invocation of the `onRetry` hook, and a sleep of the computed delay. -/
inductive RetryEvent where
  | attempt (n : Nat)
  | hookCall (n : Nat)
  | wait (n : Nat) (delayMs : Nat)
deriving DecidableEq

/-- The `RetryResult` record (minus the wall-clock duration). -/
structure RetryResult (α ε : Type) where
  success : Bool
  data : Option α
  error : Option ε
  attempts : Nat
deriving DecidableEq

/-- The retry loop. `op n` is the outcome of attempt `n`; `onRetry n e`
is the hook outcome after attempt `n` failed with `e`. An `Except.error`
of the whole call is a hook exception escaping `executeWithRetry`. -/
def executeWithRetryGo (op : Nat → Except ε α)
    (onRetry : Nat → ε → Except η Unit) (opts : RetryOptions) :
    Nat → Nat → Option ε → List RetryEvent × Except η (RetryResult α ε)
  | 0, _, lastError =>
    ([], Except.ok ⟨false, none, lastError, opts.maxAttempts⟩)
  | fuel + 1, attempt, _ =>
    match op attempt with
    | Except.ok a =>
      ([RetryEvent.attempt attempt], Except.ok ⟨true, some a, none, attempt⟩)
    | Except.error e =>
      if attempt < opts.maxAttempts then
        let delay := calculateDelay attempt opts
        match onRetry attempt e with
        | Except.error h =>
          ([RetryEvent.attempt attempt, RetryEvent.hookCall attempt],
            Except.error h)
        | Except.ok _ =>
          let rest := executeWithRetryGo op onRetry opts fuel (attempt + 1)
            (some e)
          (RetryEvent.attempt attempt :: RetryEvent.hookCall attempt ::
            RetryEvent.wait attempt delay :: rest.1, rest.2)
      else
        ([RetryEvent.attempt attempt],
          Except.ok ⟨false, none, some e, opts.maxAttempts⟩)

/-- `executeWithRetry(fn, options)`. -/
def executeWithRetry (op : Nat → Except ε α)
    (onRetry : Nat → ε → Except η Unit) (opts : RetryOptions) :
    List RetryEvent × Except η (RetryResult α ε) :=
  executeWithRetryGo op onRetry opts opts.maxAttempts 1 none

/-- The delays of the wait events of a trace, in order. -/
def waitDelays : List RetryEvent → List Nat
  | [] => []
  | RetryEvent.wait _ d :: rest => d :: waitDelays rest
  | _ :: rest => waitDelays rest

theorem executeWithRetryGo_wait_delay (op : Nat → Except ε α)
    (onRetry : Nat → ε → Except η Unit) (opts : RetryOptions)
    (fuel attempt : Nat) (le : Option ε) (n d : Nat)
    (h : RetryEvent.wait n d ∈
      (executeWithRetryGo op onRetry opts fuel attempt le).1) :
    d = calculateDelay n opts := by
  induction fuel generalizing attempt le with
  | zero => simp [executeWithRetryGo] at h
  | succ fuel ih =>
    rw [executeWithRetryGo] at h
    cases hop : op attempt with
    | ok a => simp [hop] at h
    | error e =>
      rw [hop] at h
      by_cases hlt : attempt < opts.maxAttempts
      · simp only [hlt, if_true] at h
        cases hook : onRetry attempt e with
        | error hh => simp [hook] at h
        | ok u =>
          simp only [hook, List.mem_cons] at h
          rcases h with h | h | h | h
          · exact absurd h (by simp)
          · exact absurd h (by simp)
          · cases h
            rfl
          · exact ih (attempt + 1) (some e) h
      · simp [hlt] at h

/-- An operation that fails on every attempt, used to drive the retry
loop through all its waits. -/
def alwaysFailOp : Nat → Except Unit Unit := fun _ => Except.error ()

/-- A hook that never throws. -/
def quietHook : Nat → Unit → Except Unit Unit := fun _ _ => Except.ok ()

/-- Claim C6: every pre-retry delay recorded by `executeWithRetry` after
attempt n equals `min(initialDelay * backoffMultiplier^(n-1), maxDelay)`,
and with initialDelay 1000, multiplier 2 and maxDelay 10000 the
successive delays are exactly 1000, 2000, 4000, 8000, 10000, 10000. -/
theorem retry_delay_formula {α ε η : Type} (op : Nat → Except ε α)
    (onRetry : Nat → ε → Except η Unit) (opts : RetryOptions) (n d : Nat)
    (h : RetryEvent.wait n d ∈ (executeWithRetry op onRetry opts).1) :
    d = min (opts.initialDelay * opts.backoffMultiplier ^ (n - 1))
        opts.maxDelay
    ∧ waitDelays
        (executeWithRetry alwaysFailOp quietHook ⟨7, 1000, 10000, 2⟩).1
      = [1000, 2000, 4000, 8000, 10000, 10000] := by
  constructor
  · exact executeWithRetryGo_wait_delay op onRetry opts opts.maxAttempts 1
      none n d h
  · decide

/-- Witness for C6: the first wait of the default-style policy sleeps
1000 ms, matching the closed form. -/
theorem retry_delay_formula_witness :
    RetryEvent.wait 1 1000 ∈
      (executeWithRetry alwaysFailOp quietHook ⟨7, 1000, 10000, 2⟩).1
    ∧ (1000 : Nat) = min (1000 * 2 ^ (1 - 1)) 10000 := by
  refine ⟨by decide, ?_⟩
  have h := retry_delay_formula alwaysFailOp quietHook ⟨7, 1000, 10000, 2⟩
    1 1000 (by decide)
  exact h.1

/-- An operation failing with error code 7 on every attempt. -/
def failingOp : Nat → Except Nat Unit := fun _ => Except.error 7

/-- A hook that itself throws (error value 42) whenever invoked. -/
def throwingHook : Nat → Nat → Except Nat Unit := fun _ _ => Except.error 42

/-- Counterexample to C7: with the default three-attempt policy, an
operation that fails on attempt 1 and an `onRetry` hook that throws,
`executeWithRetry` returns the escaped hook exception instead of a normal
result record, and attempt 2 is never executed: the hook failure both
aborts the remaining attempts and escapes as an exception. -/
theorem onRetry_throw_escapes_cex :
    (executeWithRetry failingOp throwingHook ⟨3, 1000, 10000, 2⟩).2
      = Except.error 42
    ∧ RetryEvent.attempt 2 ∉
        (executeWithRetry failingOp throwingHook ⟨3, 1000, 10000, 2⟩).1 := by
  constructor
  · rfl
  · decide

theorem executeWithRetryGo_hook_escape {α ε η : Type}
    (op : Nat → Except ε α) (onRetry : Nat → ε → Except η Unit)
    (opts : RetryOptions) (e : Nat → ε) (h : η) (n : Nat) :
    ∀ (fuel attempt : Nat) (le : Option ε),
    attempt + fuel = opts.maxAttempts + 1 →
    attempt ≤ n →
    n < opts.maxAttempts →
    (∀ m, attempt ≤ m → m ≤ n → op m = Except.error (e m)) →
    (∀ m, attempt ≤ m → m < n → onRetry m (e m) = Except.ok ()) →
    onRetry n (e n) = Except.error h →
    (executeWithRetryGo op onRetry opts fuel attempt le).2 = Except.error h
    ∧ ∀ k, n < k →
        RetryEvent.attempt k ∉
          (executeWithRetryGo op onRetry opts fuel attempt le).1 := by
  intro fuel
  induction fuel with
  | zero =>
    intro attempt le hinv ha hlt hops hhooks hthrow
    exfalso
    omega
  | succ fuel ih =>
    intro attempt le hinv ha hlt hops hhooks hthrow
    have hopa : op attempt = Except.error (e attempt) :=
      hops attempt (Nat.le_refl attempt) ha
    have hguard : attempt < opts.maxAttempts := lt_of_le_of_lt ha hlt
    by_cases heq : attempt = n
    · subst heq
      have hres : executeWithRetryGo op onRetry opts (fuel + 1) attempt le
          = ([RetryEvent.attempt attempt, RetryEvent.hookCall attempt],
              Except.error h) := by
        simp [executeWithRetryGo, hopa, hguard, hthrow]
      rw [hres]
      refine ⟨rfl, ?_⟩
      intro k hk
      have hkne : k ≠ attempt := by omega
      simp [hkne]
    · have hattlt : attempt < n := lt_of_le_of_ne ha heq
      have hhook : onRetry attempt (e attempt) = Except.ok () :=
        hhooks attempt (Nat.le_refl attempt) hattlt
      have ihres := ih (attempt + 1) (some (e attempt)) (by omega) hattlt hlt
        (fun m hm1 hm2 => hops m (by omega) hm2)
        (fun m hm1 hm2 => hhooks m (by omega) hm2)
        hthrow
      have hres : executeWithRetryGo op onRetry opts (fuel + 1) attempt le
          = (RetryEvent.attempt attempt :: RetryEvent.hookCall attempt ::
              RetryEvent.wait attempt (calculateDelay attempt opts) ::
              (executeWithRetryGo op onRetry opts fuel (attempt + 1)
                (some (e attempt))).1,
             (executeWithRetryGo op onRetry opts fuel (attempt + 1)
                (some (e attempt))).2) := by
        simp [executeWithRetryGo, hopa, hguard, hhook]
      rw [hres]
      refine ⟨ihres.1, ?_⟩
      intro k hk
      have h1 : k ≠ attempt := by omega
      simp only [List.mem_cons, not_or]
      exact ⟨by simp [h1], by simp, by simp, ihres.2 k hk⟩

/-- Claim C7 amended: whenever the `onRetry` hook throws at one of its
between-attempts invocations — after any attempt n that failed with a
retry still due, whatever happened at the earlier attempts — the hook
exception propagates out of `executeWithRetry` (no normal result record
is returned) and none of the remaining attempts is executed. -/
theorem onRetry_throw_escapes {α ε η : Type} (opts : RetryOptions)
    (op : Nat → Except ε α) (onRetry : Nat → ε → Except η Unit)
    (e : Nat → ε) (h : η) (n : Nat)
    (hn : 1 ≤ n)
    (hlt : n < opts.maxAttempts)
    (hops : ∀ m, 1 ≤ m → m ≤ n → op m = Except.error (e m))
    (hhooks : ∀ m, 1 ≤ m → m < n → onRetry m (e m) = Except.ok ())
    (hthrow : onRetry n (e n) = Except.error h) :
    (executeWithRetry op onRetry opts).2 = Except.error h
    ∧ ∀ k, n < k →
        RetryEvent.attempt k ∉ (executeWithRetry op onRetry opts).1 := by
  unfold executeWithRetry
  exact executeWithRetryGo_hook_escape op onRetry opts e h n
    opts.maxAttempts 1 none (by omega) hn hlt hops hhooks hthrow

/-- A hook that succeeds at the first invocation and throws (error value
42) at the second. -/
def lateThrowingHook : Nat → Nat → Except Nat Unit :=
  fun attempt _ => if attempt = 2 then Except.error 42 else Except.ok ()

/-- Witness for the amended C7 at a concrete policy: with three attempts
allowed, both early attempts failing and the hook throwing at its second
invocation (after attempt 2), the exception escapes and attempt 3 never
runs. -/
theorem onRetry_throw_escapes_witness :
    (executeWithRetry failingOp lateThrowingHook ⟨3, 1000, 10000, 2⟩).2
      = Except.error 42
    ∧ RetryEvent.attempt 3 ∉
        (executeWithRetry failingOp lateThrowingHook ⟨3, 1000, 10000, 2⟩).1 := by
  have h := onRetry_throw_escapes ⟨3, 1000, 10000, 2⟩ failingOp
    lateThrowingHook (fun _ => 7) 42 2 (by decide) (by decide)
    (fun m hm1 hm2 => rfl)
    (fun m hm1 hm2 => by
      have hm : m = 1 := by omega
      subst hm
      rfl)
    rfl
  exact ⟨h.1, h.2 3 (by decide)⟩

/-! ### BatchRepository (Firestore page cache, slow tier)

`savePage` writes the document `searches/{normalizedQuery}/cache/{page}-{limit}`
containing metadata (with `expiresAt` seven days ahead) and the vehicle
list, where each vehicle is spread with `pageIndex: index`, its 0-based
position within the page. `getPage` reads the same path, lazily deleting
an expired document. The Firestore subtree is embedded as an association
list keyed by the pair (normalized query, cache key); the metadata update
side channel and the error paths of the Firestore client are not part of
the round-trip claim and are omitted.
-/

/-- A stored vehicle record: `lotNumber` stands for all the fields the
repository passes through untouched, `pageIndex` is the field the spread
in `savePage` overwrites (absent on records that never went through
`savePage`). -/
structure BatchVehicle where
  lotNumber : String
  pageIndex : Option Nat
deriving DecidableEq

/-- The page metadata written by `savePage`. -/
structure PageMetadata where
  page : Nat
  limit : Nat
  size : Nat
  query : String
  createdAt : Nat
  expiresAt : Nat
  source : String
  scrapeDuration : Nat
deriving DecidableEq

/-- A cache document: metadata plus the vehicle list. -/
structure PageDocument where
  metadata : PageMetadata
  vehicles : List BatchVehicle
deriving DecidableEq

/-- The `searches/{query}/cache/{key}` subtree of Firestore. -/
abbrev FirestoreDB := List ((String × String) × PageDocument)

/-- Seven days in milliseconds: the slow-tier TTL set by `savePage`. -/
def SLOW_TTL_MS : Nat := 7 * 24 * 60 * 60 * 1000

/-- `query.toLowerCase().trim()`, applied identically in `savePage`,
`getPage` and `pageExists`. -/
def normalizeQuery (query : String) : String :=
  query.toLower.trim

/-- The document id `"{page}-{limit}"`. -/
def cacheKeyFor (page limit : Nat) : String :=
  toString page ++ "-" ++ toString limit

/-- The vehicle mapping of `savePage`:
`vehicles.map((v, index) => ({...v, pageIndex: index}))`, with the
positions starting at `start`. -/
def withPageIndexFrom : Nat → List BatchVehicle → List BatchVehicle
  | _, [] => []
  | start, v :: rest =>
    { v with pageIndex := some start } :: withPageIndexFrom (start + 1) rest

/-- The vehicle mapping of `savePage` from position 0. -/
def withPageIndex (vehicles : List BatchVehicle) : List BatchVehicle :=
  withPageIndexFrom 0 vehicles

/-- `savePage(query, page, limit, vehicles, scrapeDuration)`: builds the
page document (expiry seven days from now, vehicles re-indexed) and sets
it at the cache path. -/
def savePage (db : FirestoreDB) (query : String) (page limit : Nat)
    (vehicles : List BatchVehicle) (scrapeDuration now : Nat) : FirestoreDB :=
  let normalizedQuery := normalizeQuery query
  let cacheKey := cacheKeyFor page limit
  let pageDoc : PageDocument :=
    { metadata :=
        { page := page, limit := limit, size := vehicles.length,
          query := normalizedQuery, createdAt := now,
          expiresAt := now + SLOW_TTL_MS, source := "copart",
          scrapeDuration := scrapeDuration },
      vehicles := withPageIndex vehicles }
  setA db (normalizedQuery, cacheKey) pageDoc

/-- `getPage(query, page, limit)`: missing document gives null; an
expired document (`expiresAt < now`) is deleted and gives null; otherwise
the stored vehicles are returned. -/
def getPage (db : FirestoreDB) (query : String) (page limit : Nat)
    (now : Nat) : Option (List BatchVehicle) × FirestoreDB :=
  let normalizedQuery := normalizeQuery query
  let cacheKey := cacheKeyFor page limit
  match lookupA db (normalizedQuery, cacheKey) with
  | none => (none, db)
  | some pageDoc =>
    if pageDoc.metadata.expiresAt < now then
      (none, eraseA db (normalizedQuery, cacheKey))
    else
      (some pageDoc.vehicles, db)

theorem withPageIndexFrom_getEq (vehicles : List BatchVehicle)
    (start i : Nat) :
    (withPageIndexFrom start vehicles).get? i
      = (vehicles.get? i).map
          (fun v => { v with pageIndex := some (start + i) }) := by
  induction vehicles generalizing start i with
  | nil => simp [withPageIndexFrom]
  | cons v rest ih =>
    cases i with
    | zero => simp [withPageIndexFrom]
    | succ i =>
      have h := ih (start + 1) i
      have harith : start + 1 + i = start + (i + 1) := by omega
      simpa [withPageIndexFrom, harith] using h

/-- Counterexample to C9: a record stored with `pageIndex` 5 at position
0 comes back with `pageIndex` 0, so the looked-up records are not
identical to the stored ones even immediately and within TTL. -/
theorem cache_roundtrip_cex :
    (getPage (savePage [] "honda" 1 10 [⟨"12345", some 5⟩] 3 0)
        "honda" 1 10 0).1
      = some [⟨"12345", some 0⟩]
    ∧ (getPage (savePage [] "honda" 1 10 [⟨"12345", some 5⟩] 3 0)
        "honda" 1 10 0).1
      ≠ some [⟨"12345", some 5⟩] := by
  have hlook :
      lookupA (savePage [] "honda" 1 10 [⟨"12345", some 5⟩] 3 0)
        (normalizeQuery "honda", cacheKeyFor 1 10)
      = some
          { metadata :=
              { page := 1, limit := 10, size := 1,
                query := normalizeQuery "honda", createdAt := 0,
                expiresAt := SLOW_TTL_MS, source := "copart",
                scrapeDuration := 3 },
            vehicles := [⟨"12345", some 0⟩] } := by
    unfold savePage
    exact lookupA_setA_self _ _ _
  have hval :
      (getPage (savePage [] "honda" 1 10 [⟨"12345", some 5⟩] 3 0)
        "honda" 1 10 0).1 = some [⟨"12345", some 0⟩] := by
    simp only [getPage]
    rw [hlook]
    simp [SLOW_TTL_MS]
  refine ⟨hval, ?_⟩
  rw [hval]
  intro h
  have := List.head_eq_of_cons_eq (Option.some.inj h)
  simp at this

/-- Claim C9 amended: storing a page and immediately looking the same key
up (within the seven-day TTL) returns the stored records with each
record's `pageIndex` field overwritten by its 0-based position within the
page; in particular the round trip is the identity on record lists whose
`pageIndex` fields already equal their positions. -/
theorem cache_roundtrip_pageIndex
    (db : FirestoreDB) (query : String) (page limit : Nat)
    (vehicles : List BatchVehicle) (dur now later : Nat)
    (hTTL : later ≤ now + SLOW_TTL_MS) :
    (getPage (savePage db query page limit vehicles dur now)
        query page limit later).1
      = some (withPageIndex vehicles)
    ∧ (∀ i, (withPageIndex vehicles).get? i
        = (vehicles.get? i).map (fun v => { v with pageIndex := some i }))
    ∧ ((∀ i v, vehicles.get? i = some v → v.pageIndex = some i) →
        (getPage (savePage db query page limit vehicles dur now)
            query page limit later).1
          = some vehicles) := by
  have hlook :
      lookupA (savePage db query page limit vehicles dur now)
        (normalizeQuery query, cacheKeyFor page limit)
      = some
          { metadata :=
              { page := page, limit := limit, size := vehicles.length,
                query := normalizeQuery query, createdAt := now,
                expiresAt := now + SLOW_TTL_MS, source := "copart",
                scrapeDuration := dur },
            vehicles := withPageIndex vehicles } := by
    unfold savePage
    exact lookupA_setA_self _ _ _
  have hget :
      (getPage (savePage db query page limit vehicles dur now)
          query page limit later).1
        = some (withPageIndex vehicles) := by
    simp only [getPage]
    rw [hlook]
    simp [Nat.not_lt.mpr hTTL]
  have hidx : ∀ i, (withPageIndex vehicles).get? i
      = (vehicles.get? i).map (fun v => { v with pageIndex := some i }) := by
    intro i
    simpa using withPageIndexFrom_getEq vehicles 0 i
  refine ⟨hget, hidx, ?_⟩
  intro hfix
  have hsame : withPageIndex vehicles = vehicles := by
    apply List.ext_get?
    intro i
    rw [hidx i]
    cases hv : vehicles.get? i with
    | none => rfl
    | some v =>
      have := hfix i v hv
      simp [← this]
  rw [hget, hsame]

/-- Witness for the amended C9: a two-record page stored at time 0 and
read back at the end of its TTL returns the re-indexed records, and a
page whose records already carry their positions round-trips unchanged. -/
theorem cache_roundtrip_pageIndex_witness :
    (getPage (savePage [] "Honda Civic" 2 10
        [⟨"111", none⟩, ⟨"222", some 9⟩] 4 0)
        "Honda Civic" 2 10 SLOW_TTL_MS).1
      = some [⟨"111", some 0⟩, ⟨"222", some 1⟩]
    ∧ (getPage (savePage [] "toyota" 1 2 [⟨"333", some 0⟩, ⟨"444", some 1⟩]
        4 0) "toyota" 1 2 100).1
      = some [⟨"333", some 0⟩, ⟨"444", some 1⟩] := by
  constructor
  · have h := cache_roundtrip_pageIndex [] "Honda Civic" 2 10
      [⟨"111", none⟩, ⟨"222", some 9⟩] 4 0 SLOW_TTL_MS (by omega)
    rw [h.1]
    rfl
  · have h := cache_roundtrip_pageIndex [] "toyota" 1 2
      [⟨"333", some 0⟩, ⟨"444", some 1⟩] 4 0 100 (by simp [SLOW_TTL_MS])
    refine h.2.2 ?_
    intro i v hv
    match i, hv with
    | 0, hv => cases Option.some.inj hv; rfl
    | 1, hv => cases Option.some.inj hv; rfl

/-! ### JobQueueSecurityService (src/src/services/security/job-queue-security.service.ts)

The Redis-backed counter store is embedded as a pair of oracles, `get`
and `set`, each of which may throw (`Except.error ()`). Both private
checks wrap their store traffic in try/catch and return `allowed: true`
from the catch arm (fail open). Default configuration: 10 requests per
minute per IP, 100 per API key; 3 concurrent jobs per IP, 10 per API
key.
-/

/-- The `SecurityCheckResult` record. -/
structure SecurityCheckResult where
  allowed : Bool
  retryAfterSeconds : Option Nat
deriving DecidableEq

/-- The counter backend: `get key` returns the stored count (or none) or
throws; `set key value ttl` writes or throws. -/
structure CacheBackend where
  get : String → Except Unit (Option Nat)
  set : String → Nat → Nat → Except Unit Unit

/-- Sliding-window rate-limit configuration. -/
structure RateLimitConfig where
  maxRequests : Nat
  windowMs : Nat
deriving DecidableEq

/-- `SECURITY_CONFIG.rateLimits.perIp` default. -/
def perIpRate : RateLimitConfig := ⟨10, 60000⟩

/-- `SECURITY_CONFIG.rateLimits.perApiKey` default. -/
def perApiKeyRate : RateLimitConfig := ⟨100, 60000⟩

/-- `SECURITY_CONFIG.maxConcurrentJobs` defaults. -/
def maxJobsPerIp : Nat := 3

/-- `SECURITY_CONFIG.maxConcurrentJobs.perApiKey` default. -/
def maxJobsPerApiKey : Nat := 10

/-- `apiKey || clientIp`. -/
def identifierOf (clientIp : String) (apiKey : Option String) : String :=
  apiKey.getD clientIp

/-- The rate-limit counter key `ratelimit:{identifier}`. -/
def rateLimitKey (clientIp : String) (apiKey : Option String) : String :=
  "ratelimit:" ++ identifierOf clientIp apiKey

/-- The concurrency counter key `concurrent:{identifier}`. -/
def concurrentKey (clientIp : String) (apiKey : Option String) : String :=
  "concurrent:" ++ identifierOf clientIp apiKey

/-- `Math.ceil(windowMs / 1000)`. -/
def ceilSeconds (windowMs : Nat) : Nat :=
  (windowMs + 999) / 1000

/-- `checkRateLimit(clientIp, apiKey)`: reads the windowed count (0 when
absent), denies with a retry-after hint at or above the limit, otherwise
increments the counter and allows; any thrown store error is caught and
the request allowed. -/
def checkRateLimit (cache : CacheBackend) (clientIp : String)
    (apiKey : Option String) : SecurityCheckResult :=
  let config := if apiKey.isSome then perApiKeyRate else perIpRate
  let cacheKey := rateLimitKey clientIp apiKey
  match cache.get cacheKey with
  | Except.error _ => ⟨true, none⟩
  | Except.ok currentCount =>
    let currentCount := currentCount.getD 0
    if currentCount ≥ config.maxRequests then
      ⟨false, some (ceilSeconds config.windowMs)⟩
    else
      match cache.set cacheKey (currentCount + 1)
          (ceilSeconds config.windowMs) with
      | Except.error _ => ⟨true, none⟩
      | Except.ok _ => ⟨true, none⟩

/-- `checkConcurrentJobs(clientIp, apiKey)`: reads the concurrent-job
count (0 when absent) and denies at or above the cap; a thrown store
error is caught and the request allowed. -/
def checkConcurrentJobs (cache : CacheBackend) (clientIp : String)
    (apiKey : Option String) : SecurityCheckResult :=
  let maxJobs := if apiKey.isSome then maxJobsPerApiKey else maxJobsPerIp
  let cacheKey := concurrentKey clientIp apiKey
  match cache.get cacheKey with
  | Except.error _ => ⟨true, none⟩
  | Except.ok currentJobs =>
    if currentJobs.getD 0 ≥ maxJobs then
      ⟨false, none⟩
    else
      ⟨true, none⟩

/-- `canSubmitJob(clientIp, apiKey)`: rate limit first, then the
concurrency cap; the first denial wins, otherwise allowed. -/
def canSubmitJob (cache : CacheBackend) (clientIp : String)
    (apiKey : Option String) : SecurityCheckResult :=
  let rateLimitCheck := checkRateLimit cache clientIp apiKey
  if ¬rateLimitCheck.allowed then
    rateLimitCheck
  else
    let concurrencyCheck := checkConcurrentJobs cache clientIp apiKey
    if ¬concurrencyCheck.allowed then
      concurrencyCheck
    else
      ⟨true, none⟩

/-- Claim C10: admission fails open. A thrown read in the rate-limit
check makes that check allow; a thrown read in the concurrent-jobs check
makes that check allow; a thrown write after an under-limit read still
allows; and when the counter backend is unavailable (every read throws)
`canSubmitJob` returns allowed for the request. -/
theorem admission_fails_open (cache : CacheBackend) (clientIp : String)
    (apiKey : Option String) :
    (cache.get (rateLimitKey clientIp apiKey) = Except.error () →
      (checkRateLimit cache clientIp apiKey).allowed = true)
    ∧ (cache.get (concurrentKey clientIp apiKey) = Except.error () →
      (checkConcurrentJobs cache clientIp apiKey).allowed = true)
    ∧ (∀ stored,
        cache.get (rateLimitKey clientIp apiKey) = Except.ok stored →
        stored.getD 0 <
          (if apiKey.isSome then perApiKeyRate else perIpRate).maxRequests →
        (checkRateLimit cache clientIp apiKey).allowed = true)
    ∧ ((∀ k, cache.get k = Except.error ()) →
      (canSubmitJob cache clientIp apiKey).allowed = true) := by
  refine ⟨?_, ?_, ?_, ?_⟩
  · intro hget
    simp [checkRateLimit, hget]
  · intro hget
    simp [checkConcurrentJobs, hget]
  · intro stored hget hlt
    have hnot : ¬ stored.getD 0 ≥
        (if apiKey.isSome then perApiKeyRate else perIpRate).maxRequests :=
      Nat.not_le.mpr hlt
    simp only [checkRateLimit, hget, hnot, if_false]
    cases cache.set (rateLimitKey clientIp apiKey) (stored.getD 0 + 1)
        (ceilSeconds
          (if apiKey.isSome then perApiKeyRate else perIpRate).windowMs) with
    | error e => rfl
    | ok u => rfl
  · intro hall
    have h1 : (checkRateLimit cache clientIp apiKey).allowed = true := by
      simp [checkRateLimit, hall (rateLimitKey clientIp apiKey)]
    have h2 : (checkConcurrentJobs cache clientIp apiKey).allowed = true := by
      simp [checkConcurrentJobs, hall (concurrentKey clientIp apiKey)]
    simp [canSubmitJob, h1, h2]

/-- A backend whose every operation throws, modelling an unavailable
Redis. -/
def downBackend : CacheBackend :=
  ⟨fun _ => Except.error (), fun _ _ _ => Except.error ()⟩

/-- Witness for C10: with the backend down, an anonymous caller is still
admitted and both checks individually allow. -/
theorem admission_fails_open_witness :
    (checkRateLimit downBackend "10.0.0.1" none).allowed = true
    ∧ (checkConcurrentJobs downBackend "10.0.0.1" none).allowed = true
    ∧ (canSubmitJob downBackend "10.0.0.1" none).allowed = true := by
  have h := admission_fails_open downBackend "10.0.0.1" none
  exact ⟨h.1 rfl, h.2.1 rfl, h.2.2.2 (fun k => rfl)⟩

/-! ### SearchController sync path (src/unnamed/part_006, intelligentSearch)

The synchronous branch after validation: L1 Redis lookup (errors caught,
treated as a miss), L2 Firestore lookup, then — on a miss — an isLocked
check; when locked, `waitForScraping` polls the Firestore page and throws
a timeout error if it never fills; when not locked, `acquireLock` is
called and a null lock id throws the could-not-acquire error at once;
with the lock held `performScraping` runs with the release in a finally
block. The collaborator calls are embedded as an oracle environment (the
real lock service may return null to this caller under interleaving) and
the controller is the function from the oracle to the produced events
and result.
-/

/-- Collaborator calls the sync path can make, in order of occurrence. -/
inductive SyncEvent where
  | redisLookup
  | firestoreLookup
  | waitForScraping
  | acquire
  | scrape
  | release
deriving DecidableEq

/-- Errors thrown by the sync path after validation. -/
inductive SearchError where
  | waitTimeout
  | lockUnavailable
  | noVehicles
  | scrapeFailed
deriving DecidableEq

/-- The `source` field of a successful response. -/
inductive SearchSource where
  | redis
  | cache
  | lockWait
  | live
deriving DecidableEq

/-- Oracle for the collaborator calls of one pass through the sync path:
cache answers, the isLocked answer, the outcome of the wait loop (none
is a timeout) and of the lock acquisition, and the scrape outcome. -/
structure SyncEnv where
  redisResult : Option (List BatchVehicle)
  firestoreResult : Option (List BatchVehicle)
  lockedAtCheck : Bool
  waitResult : Option (List BatchVehicle)
  acquireResult : Option String
  scrapeResult : Except String (List BatchVehicle)

/-- Does a cache answer count as a hit (`result && result.length > 0`)? -/
def hasRecords : Option (List BatchVehicle) → Bool
  | some (_ :: _) => true
  | _ => false

/-- The synchronous cache-miss path of `intelligentSearch`, from the L1
lookup to the response, as a function of the collaborator oracle,
returning the event trace and the thrown error or response source. -/
def syncSearch (env : SyncEnv) : List SyncEvent × Except SearchError SearchSource :=
  match env.redisResult with
  | some (_ :: _) => ([SyncEvent.redisLookup], Except.ok SearchSource.redis)
  | _ =>
    match env.firestoreResult with
    | some (_ :: _) =>
      ([SyncEvent.redisLookup, SyncEvent.firestoreLookup],
        Except.ok SearchSource.cache)
    | _ =>
      if env.lockedAtCheck then
        match env.waitResult with
        | some (_ :: _) =>
          ([SyncEvent.redisLookup, SyncEvent.firestoreLookup,
              SyncEvent.waitForScraping],
            Except.ok SearchSource.lockWait)
        | _ =>
          ([SyncEvent.redisLookup, SyncEvent.firestoreLookup,
              SyncEvent.waitForScraping],
            Except.error SearchError.waitTimeout)
      else
        match env.acquireResult with
        | none =>
          ([SyncEvent.redisLookup, SyncEvent.firestoreLookup,
              SyncEvent.acquire],
            Except.error SearchError.lockUnavailable)
        | some _ =>
          match env.scrapeResult with
          | Except.ok (_ :: _) =>
            ([SyncEvent.redisLookup, SyncEvent.firestoreLookup,
                SyncEvent.acquire, SyncEvent.scrape, SyncEvent.release],
              Except.ok SearchSource.live)
          | Except.ok [] =>
            ([SyncEvent.redisLookup, SyncEvent.firestoreLookup,
                SyncEvent.acquire, SyncEvent.scrape, SyncEvent.release],
              Except.error SearchError.noVehicles)
          | Except.error _ =>
            ([SyncEvent.redisLookup, SyncEvent.firestoreLookup,
                SyncEvent.acquire, SyncEvent.scrape, SyncEvent.release],
              Except.error SearchError.scrapeFailed)

/-- An oracle where both caches miss, the key is not locked at the
check, and the acquisition nevertheless fails (another caller took the
lock in between). -/
def busyEnv : SyncEnv :=
  { redisResult := none, firestoreResult := none, lockedAtCheck := false,
    waitResult := none, acquireResult := none,
    scrapeResult := Except.error "unreached" }

/-- Counterexample to C3: when the lock acquisition attempt fails after a
cache miss, the controller surfaces the could-not-acquire error at once;
no wait-for-release pass happens after the failed acquisition, contrary
to the claim that the error is never raised immediately. -/
theorem acquire_fail_immediate_error_cex :
    (syncSearch busyEnv).2 = Except.error SearchError.lockUnavailable
    ∧ SyncEvent.waitForScraping ∉ (syncSearch busyEnv).1 := by
  constructor
  · rfl
  · decide

/-- Claim C3 amended: in the synchronous path, after a miss of both cache
tiers and an isLocked check that reported the key free, a failed
`acquireLock` makes `intelligentSearch` throw the could-not-acquire error
immediately; the wait-for-release logic runs only before the acquisition
attempt (when isLocked reported the key busy), never after a failed
acquisition. -/
theorem acquire_fail_immediate_error (env : SyncEnv)
    (h1 : hasRecords env.redisResult = false)
    (h2 : hasRecords env.firestoreResult = false)
    (h3 : env.lockedAtCheck = false)
    (h4 : env.acquireResult = none) :
    syncSearch env
      = ([SyncEvent.redisLookup, SyncEvent.firestoreLookup, SyncEvent.acquire],
        Except.error SearchError.lockUnavailable) := by
  unfold syncSearch
  rw [h3, h4]
  match hr : env.redisResult with
  | some (_ :: _) => rw [hr] at h1; simp [hasRecords] at h1
  | some [] =>
    match hf : env.firestoreResult with
    | some (_ :: _) => rw [hf] at h2; simp [hasRecords] at h2
    | some [] => simp [hr, hf]
    | none => simp [hr, hf]
  | none =>
    match hf : env.firestoreResult with
    | some (_ :: _) => rw [hf] at h2; simp [hasRecords] at h2
    | some [] => simp [hr, hf]
    | none => simp [hr, hf]

/-- Witness for the amended C3 at the concrete busy oracle. -/
theorem acquire_fail_immediate_error_witness :
    syncSearch busyEnv
      = ([SyncEvent.redisLookup, SyncEvent.firestoreLookup, SyncEvent.acquire],
        Except.error SearchError.lockUnavailable) :=
  acquire_fail_immediate_error busyEnv rfl rfl rfl rfl

/-! ### ScraptPressWorker and job status (src/unnamed/part_013, BatchRepository.updateJobStatus)

`processScrapeJob` writes `processing` at the start of every attempt; on
success it writes `completed`; on failure it writes `failed` (with the
attempt number) and rethrows so that Bull retries up to its attempts
budget (3 by default for jobs enqueued by `queueSearchJob`).
`BatchRepository.updateJobStatus` is a merge-set: it overwrites the
status field unconditionally, with no guard on the current value. The
embedding: one attempt maps its scrape outcome to the list of status
writes, and the broker runs attempts off the outcome list until a
success or the list (the retry budget) is exhausted.
-/

/-- The persisted `status` values. -/
inductive JobStatus where
  | queued
  | processing
  | completed
  | failed
deriving DecidableEq

/-- `BatchRepository.updateJobStatus`: a merge-set of the job document;
the status field is simply overwritten (last write wins). -/
def updateJobStatus (_current : Option JobStatus) (status : JobStatus) :
    Option JobStatus :=
  some status

/-- The status writes of one `processScrapeJob` attempt: `processing`
first, then `completed` on a successful scrape or `failed` on a thrown
error (which is rethrown to the broker, the `Except` result). -/
def processScrapeJobStatuses (outcome : Except String (List BatchVehicle)) :
    List JobStatus × Except String Unit :=
  match outcome with
  | Except.ok _ => ([JobStatus.processing, JobStatus.completed], Except.ok ())
  | Except.error e =>
    ([JobStatus.processing, JobStatus.failed], Except.error e)

/-- The broker retry loop: run one attempt per outcome in the list,
stopping after the first successful attempt; the list length is the
attempts budget. Returns all status writes in order. -/
def brokerRunStatuses : List (Except String (List BatchVehicle)) →
    List JobStatus
  | [] => []
  | outcome :: rest =>
    match processScrapeJobStatuses outcome with
    | (writes, Except.ok _) => writes
    | (writes, Except.error _) => writes ++ brokerRunStatuses rest

/-- The job document status after a sequence of `updateJobStatus` writes. -/
def finalStatus (writes : List JobStatus) : Option JobStatus :=
  writes.foldl updateJobStatus none

theorem foldl_updateJobStatus_acc (writes : List JobStatus)
    (a : Option JobStatus) (h : writes ≠ []) :
    writes.foldl updateJobStatus a = writes.foldl updateJobStatus none := by
  cases writes with
  | nil => exact absurd rfl h
  | cons w rest => rfl

theorem brokerRunStatuses_ne_nil
    (outs : List (Except String (List BatchVehicle))) (h : outs ≠ []) :
    brokerRunStatuses outs ≠ [] := by
  cases outs with
  | nil => exact absurd rfl h
  | cons o rest => cases o <;> simp [brokerRunStatuses, processScrapeJobStatuses]

/-- Counterexample to C5: with the default budget of 3 attempts, a job
whose first attempt fails and second succeeds is persisted as `failed`
after attempt 1 — before the budget is exhausted — and the broker retry
then moves it from that terminal status back to `processing` (and later
`completed`): terminal statuses are not immutable. -/
theorem job_terminal_status_cex :
    brokerRunStatuses
        [Except.error "blocked", Except.ok [⟨"12345", none⟩],
          Except.error "unreached"]
      = [JobStatus.processing, JobStatus.failed, JobStatus.processing,
          JobStatus.completed]
    ∧ updateJobStatus (some JobStatus.failed) JobStatus.processing
      = some JobStatus.processing := by
  constructor
  · rfl
  · rfl

/-- Claim C5 amended: the worker writes `failed` after every failed
attempt (not only once the broker budget is exhausted) and a broker
retry overwrites it back to `processing`; the persisted status is
last-write-wins with no terminal guard. Consequently the job ends
`failed` exactly when every attempt in the budget failed, and ends
`completed` when a first success follows zero or more failures. -/
theorem job_status_last_write_wins
    (outcomes : List (Except String (List BatchVehicle)))
    (e : String) (o2 : Except String (List BatchVehicle))
    (rest : List (Except String (List BatchVehicle)))
    (vs : List BatchVehicle)
    (hne : outcomes ≠ [])
    (hallfail : ∀ o ∈ outcomes, ∃ err, o = Except.error err) :
    finalStatus (brokerRunStatuses outcomes) = some JobStatus.failed
    ∧ (∀ prefixFails,
        (∀ o ∈ prefixFails, ∃ err, o = Except.error err) →
        finalStatus
            (brokerRunStatuses (prefixFails ++ Except.ok vs :: rest))
          = some JobStatus.completed)
    ∧ (brokerRunStatuses (Except.error e :: o2 :: rest)).get? 1
        = some JobStatus.failed
    ∧ (brokerRunStatuses (Except.error e :: o2 :: rest)).get? 2
        = some JobStatus.processing := by
  refine ⟨?_, ?_, ?_, ?_⟩
  · induction outcomes with
    | nil => exact absurd rfl hne
    | cons o rest2 ih =>
      obtain ⟨err, ho⟩ := hallfail o (List.mem_cons_self o rest2)
      subst ho
      have hstep : brokerRunStatuses (Except.error err :: rest2)
          = [JobStatus.processing, JobStatus.failed]
            ++ brokerRunStatuses rest2 := rfl
      rw [hstep]
      cases rest2 with
      | nil => rfl
      | cons o2b rest3 =>
        have hall2 : ∀ o ∈ o2b :: rest3, ∃ err, o = Except.error err :=
          fun o hm => hallfail o (List.mem_cons_of_mem _ hm)
        have hrec := ih (by simp) hall2
        unfold finalStatus at hrec ⊢
        rw [List.foldl_append]
        show (brokerRunStatuses (o2b :: rest3)).foldl updateJobStatus
          (some JobStatus.failed) = some JobStatus.failed
        rw [foldl_updateJobStatus_acc _ _
          (brokerRunStatuses_ne_nil _ (by simp))]
        exact hrec
  · intro prefixFails hpf
    induction prefixFails with
    | nil => rfl
    | cons o rest2 ih =>
      obtain ⟨err, ho⟩ := hpf o (List.mem_cons_self o rest2)
      subst ho
      have hall2 : ∀ o ∈ rest2, ∃ err, o = Except.error err :=
        fun o hm => hpf o (List.mem_cons_of_mem _ hm)
      have hrec := ih hall2
      have hstep :
          brokerRunStatuses ((Except.error err :: rest2)
              ++ Except.ok vs :: rest)
            = [JobStatus.processing, JobStatus.failed]
              ++ brokerRunStatuses (rest2 ++ Except.ok vs :: rest) := rfl
      rw [hstep]
      unfold finalStatus at hrec ⊢
      rw [List.foldl_append]
      show (brokerRunStatuses (rest2 ++ Except.ok vs :: rest)).foldl
        updateJobStatus (some JobStatus.failed) = some JobStatus.completed
      rw [foldl_updateJobStatus_acc _ _
        (brokerRunStatuses_ne_nil _ (by simp))]
      exact hrec
  · cases o2 with
    | ok v => rfl
    | error e2 => rfl
  · cases o2 with
    | ok v => rfl
    | error e2 => rfl

/-- Witness for the amended C5: three failing attempts end `failed`; one
failure then a success ends `completed`; and in that second run the
writes at positions 1 and 2 are `failed` then `processing`. -/
theorem job_status_last_write_wins_witness :
    finalStatus (brokerRunStatuses
        [Except.error "a", Except.error "b", Except.error "c"])
      = some JobStatus.failed
    ∧ finalStatus (brokerRunStatuses
        [Except.error "a", Except.ok [⟨"12345", none⟩]])
      = some JobStatus.completed
    ∧ (brokerRunStatuses [Except.error "a", Except.ok [⟨"12345", none⟩]]).get? 1
      = some JobStatus.failed
    ∧ (brokerRunStatuses [Except.error "a", Except.ok [⟨"12345", none⟩]]).get? 2
      = some JobStatus.processing := by
  have h := job_status_last_write_wins
    [Except.error "a", Except.error "b", Except.error "c"]
    "a" (Except.ok [⟨"12345", none⟩]) ([] : List (Except String (List BatchVehicle)))
    [⟨"12345", none⟩] (by simp)
    (by intro o hm
        simp only [List.mem_cons, List.not_mem_nil, or_false] at hm
        rcases hm with h1 | h1 | h1 <;> exact ⟨_, h1⟩)
  refine ⟨h.1, ?_, h.2.2.1, h.2.2.2⟩
  have h2 := h.2.1 [Except.error "a"]
    (by intro o hm
        simp only [List.mem_cons, List.not_mem_nil, or_false] at hm
        exact ⟨_, hm⟩)
  simpa using h2

/-! ### Concurrent-job counter lifecycle (src/unnamed/part_006 queueSearchJob, src/unnamed/part_013 processScrapeJob)

`queueSearchJob` calls `incrementConcurrentJobs`, then enqueues the Bull
job and writes the initial `queued` status; its catch block calls
`decrementConcurrentJobs` and rethrows, so the decrement happens exactly
on a submission failure. `processScrapeJob` — the only code that runs a
job to a terminal state — contains no call to `incrementConcurrentJobs`
or `decrementConcurrentJobs` at all, and no other code calls them (the
counter entry merely expires through its one-hour TTL). The embedding
records the counter calls made over one job lifecycle, with the two
fallible submission steps as oracles and the worker run given by its
attempt outcomes.
-/

/-- Calls made on the concurrent-jobs counter of an identity. -/
inductive CounterEvent where
  | increment
  | decrement
deriving DecidableEq

/-- The two fallible steps of `queueSearchJob` that its catch block
guards: `queueManager.addJob` and the initial `updateJobStatus` write. -/
structure SubmitOutcome where
  addJobOk : Bool
  statusWriteOk : Bool

/-- The counter calls of `queueSearchJob` and whether submission
succeeded: increment first; on a throw from either guarded step the
catch block decrements and rethrows. -/
def queueSearchJobEvents (env : SubmitOutcome) : List CounterEvent × Bool :=
  if env.addJobOk then
    if env.statusWriteOk then
      ([CounterEvent.increment], true)
    else
      ([CounterEvent.increment, CounterEvent.decrement], false)
  else
    ([CounterEvent.increment, CounterEvent.decrement], false)

/-- The counter calls of the worker processing a queued job to its
terminal state: `processScrapeJob` performs status writes and the scrape
but never touches the concurrent-jobs counter, whatever the attempt
outcomes. -/
def workerCounterEvents
    (_outcomes : List (Except String (List BatchVehicle))) :
    List CounterEvent :=
  []

/-- The counter calls over one full job lifecycle: submission, then — if
the job was queued — the worker run to a terminal state. -/
def lifecycleEvents (env : SubmitOutcome)
    (outcomes : List (Except String (List BatchVehicle))) :
    List CounterEvent :=
  let submitted := queueSearchJobEvents env
  if submitted.2 then
    submitted.1 ++ workerCounterEvents outcomes
  else
    submitted.1

/-- Counterexample to C4: a job that is admitted, queued successfully and
processed by the worker to `completed` has its counter incremented once
and decremented zero times — not exactly once at the terminal state — so
increments and decrements do not occur in matched pairs. -/
theorem counter_pairing_cex :
    lifecycleEvents ⟨true, true⟩ [Except.ok [⟨"12345", none⟩]]
      = [CounterEvent.increment]
    ∧ (lifecycleEvents ⟨true, true⟩
        [Except.ok [⟨"12345", none⟩]]).count CounterEvent.decrement = 0 := by
  constructor
  · rfl
  · rfl

/-- Claim C4 amended: every submission increments the counter exactly
once, and `decrementConcurrentJobs` runs exactly when the submission
itself fails (enqueue or initial status write throws); a job that is
queued and later reaches a terminal state in the worker — successfully
or not — is never decremented, the counter entry instead expiring via
its one-hour TTL. -/
theorem counter_decrement_only_on_submit_failure (env : SubmitOutcome)
    (outcomes : List (Except String (List BatchVehicle))) :
    (lifecycleEvents env outcomes).count CounterEvent.increment = 1
    ∧ (lifecycleEvents env outcomes).count CounterEvent.decrement
      = (if env.addJobOk ∧ env.statusWriteOk then 0 else 1)
    ∧ workerCounterEvents outcomes = [] := by
  obtain ⟨a, s⟩ := env
  cases a <;> cases s <;>
    simp [lifecycleEvents, queueSearchJobEvents, workerCounterEvents,
      List.count_cons, List.count_nil]

/-- Witness for the amended C4 on a failing submission: the increment is
rolled back by exactly one decrement. -/
theorem counter_decrement_only_on_submit_failure_witness :
    (lifecycleEvents ⟨false, true⟩ []).count CounterEvent.increment = 1
    ∧ (lifecycleEvents ⟨false, true⟩ []).count CounterEvent.decrement = 1 := by
  have h := counter_decrement_only_on_submit_failure ⟨false, true⟩ []
  refine ⟨h.1, ?_⟩
  rw [h.2.1]
  simp
